import Mathlib

/-!
Verification of the `triple_buffer` crate (src/lib.rs), a single-producer
single-consumer triple buffer.  The shared state holds three value slots
and one descriptor word packing a back-buffer index (low two bits) and a
dirty flag (bit 2).  The producer handle owns `input_idx`, the consumer
handle owns `output_idx`; `publish` and `update` exchange those private
indices with the descriptor's index field.

The embedding flattens the producer handle, the consumer handle and the
shared state they both reference into one record `TripleBuffer`, and models
each Rust method as a pure state-passing function.  Buffer-array indexing,
which panics in Rust when the index is out of range, is Option-valued.
A second, pointer-based layer (`Heap`, `ArcBuffer`) models the `Arc`
allocations explicitly; it is used for the claims about `Clone` producing
a separate shared state.
-/

/-- Mask used to extract the back-buffer index from the descriptor word
(`BACK_INDEX_MASK` in src/lib.rs). -/
def BACK_INDEX_MASK : Nat := 3

/-- Bit set by the producer in the descriptor word to signal an unread
update (`BACK_DIRTY_BIT` in src/lib.rs). -/
def BACK_DIRTY_BIT : Nat := 4

/-- The fixed array of three value slots (`buffers: [UnsafeCell<T>; 3]`). -/
structure Buffers (T : Type) where
  b0 : T
  b1 : T
  b2 : T
deriving DecidableEq, Repr

/-- Read slot `i`; Rust array indexing panics out of range, so this is
Option-valued. -/
def Buffers.get? {T : Type} (bs : Buffers T) (i : Nat) : Option T :=
  match i with
  | 0 => some bs.b0
  | 1 => some bs.b1
  | 2 => some bs.b2
  | _ => none

/-- Overwrite slot `i`; `none` models the Rust panic on an out-of-range
index. -/
def Buffers.set? {T : Type} (bs : Buffers T) (i : Nat) (v : T) : Option (Buffers T) :=
  match i with
  | 0 => some { bs with b0 := v }
  | 1 => some { bs with b1 := v }
  | 2 => some { bs with b2 := v }
  | _ => none

/-- Rust `SharedState<T>`: the three storage slots plus the atomic back-buffer
descriptor word (`back_info: AtomicBackBufferInfo`). -/
structure SharedState (T : Type) where
  buffers : Buffers T
  back_info : Nat
deriving DecidableEq, Repr

/-- The flattened sequential state of one triple buffer: the shared state
together with the producer's private `input_idx` and the consumer's
private `output_idx`. -/
structure TripleBuffer (T : Type) where
  shared : SharedState T
  input_idx : Nat
  output_idx : Nat
deriving DecidableEq, Repr

/-- Rust `TripleBuffer::new_impl`: the three slots are filled by three distinct
calls to the generator (modelled by the call number `0`, `1`, `2`), the
descriptor starts at `0` (back index 0, dirty clear), `input_idx = 1`,
`output_idx = 2`. -/
def TripleBuffer.new_impl {T : Type} (g : Nat → T) : TripleBuffer T :=
  { shared := { buffers := ⟨g 0, g 1, g 2⟩, back_info := 0 },
    input_idx := 1,
    output_idx := 2 }

/-- Rust `TripleBuffer::new`: construct from an initial value, cloned into each
slot. -/
def TripleBuffer.new {T : Type} (initial : T) : TripleBuffer T :=
  TripleBuffer.new_impl (fun _ => initial)

namespace Input

/-- Rust `Input::publish`: swap `input_idx | BACK_DIRTY_BIT` into the
descriptor, take the index part of the former descriptor as the new
`input_idx`, and report whether the former dirty bit was set. -/
def publish {T : Type} (m : TripleBuffer T) : Bool × TripleBuffer T :=
  let former_back_info := m.shared.back_info
  let m' : TripleBuffer T :=
    { m with
      shared := { m.shared with back_info := m.input_idx ||| BACK_DIRTY_BIT },
      input_idx := former_back_info &&& BACK_INDEX_MASK }
  (former_back_info &&& BACK_DIRTY_BIT != 0, m')

/-- Models `*self.input_buffer() = value`: store into the producer's private
slot. -/
def input_buffer_set {T : Type} (m : TripleBuffer T) (value : T) : Option (TripleBuffer T) :=
  (Buffers.set? m.shared.buffers m.input_idx value).map
    (fun bs => { m with shared := { m.shared with buffers := bs } })

/-- Rust `Input::write`: store the value into the input slot, then publish
(discarding the overwrite flag). -/
def write {T : Type} (value : T) (m : TripleBuffer T) : Option (TripleBuffer T) :=
  (input_buffer_set m value).map (fun m1 => (publish m1).2)

/-- Rust `Input::consumed`: relaxed load of the descriptor, dirty bit clear. -/
def consumed {T : Type} (m : TripleBuffer T) : Bool :=
  m.shared.back_info &&& BACK_DIRTY_BIT == 0

end Input

namespace Output

/-- Rust `Output::updated`: relaxed load of the descriptor, dirty bit set. -/
def updated {T : Type} (m : TripleBuffer T) : Bool :=
  m.shared.back_info &&& BACK_DIRTY_BIT != 0

/-- Rust `Output::update`: if the dirty bit is set, swap `output_idx` into the
descriptor and take the index part of the former descriptor as the new
`output_idx`; otherwise do nothing.  Returns whether an update was
pulled. -/
def update {T : Type} (m : TripleBuffer T) : Bool × TripleBuffer T :=
  let u := updated m
  if u then
    let former_back_info := m.shared.back_info
    (u, { m with
          shared := { m.shared with back_info := m.output_idx },
          output_idx := former_back_info &&& BACK_INDEX_MASK })
  else
    (u, m)

/-- Rust `Output::read`: fetch updates, then return the contents of the output
slot (Option-valued for the out-of-range panic). -/
def read {T : Type} (m : TripleBuffer T) : Option (T × TripleBuffer T) :=
  let m1 := (update m).2
  (Buffers.get? m1.shared.buffers m1.output_idx).map (fun v => (v, m1))

end Output

/-- The back-buffer index currently stored in the descriptor. -/
def backIdx {T : Type} (m : TripleBuffer T) : Nat :=
  m.shared.back_info &&& BACK_INDEX_MASK

/-- The twelve well-formed index configurations
`(input_idx, output_idx, back_info)`: every permutation of `{0,1,2}` for
the three indices, with the dirty bit either clear or set. -/
def invStates : List (Nat × Nat × Nat) :=
  [(0, 1, 2), (0, 1, 6), (0, 2, 1), (0, 2, 5),
   (1, 0, 2), (1, 0, 6), (1, 2, 0), (1, 2, 4),
   (2, 0, 1), (2, 0, 5), (2, 1, 0), (2, 1, 4)]

/-- State well-formedness: the index configuration is one of the twelve
valid ones (three pairwise-distinct slot indices covering `{0,1,2}`, any
dirty bit). -/
def IndexInv {T : Type} (m : TripleBuffer T) : Prop :=
  (m.input_idx, m.output_idx, m.shared.back_info) ∈ invStates

instance {T : Type} (m : TripleBuffer T) : Decidable (IndexInv m) := by
  unfold IndexInv; infer_instance

/-- States reachable from construction by any sequence of
write/publish/read/update calls. -/
inductive Reachable {T : Type} (g : Nat → T) : TripleBuffer T → Prop where
  | init : Reachable g (TripleBuffer.new_impl g)
  | write (v : T) {m m' : TripleBuffer T} :
      Reachable g m → Input.write v m = some m' → Reachable g m'
  | publish {m : TripleBuffer T} :
      Reachable g m → Reachable g (Input.publish m).2
  | update {m : TripleBuffer T} :
      Reachable g m → Reachable g (Output.update m).2
  | read (v : T) {m m' : TripleBuffer T} :
      Reachable g m → Output.read m = some (v, m') → Reachable g m'

/-- Rust `SharedState::eq`: all three slot contents agree and the descriptor
words (relaxed loads) agree. -/
def SharedState.eq {T : Type} [DecidableEq T] (a b : SharedState T) : Bool :=
  (decide (a.buffers.b0 = b.buffers.b0) &&
   decide (a.buffers.b1 = b.buffers.b1) &&
   decide (a.buffers.b2 = b.buffers.b2)) &&
  decide (a.back_info = b.back_info)

/-- Rust `impl PartialEq for TripleBuffer`: the shared states compare equal and
the two private indices agree. -/
def TripleBuffer.eq {T : Type} [DecidableEq T] (a b : TripleBuffer T) : Bool :=
  SharedState.eq a.shared b.shared &&
  decide (a.input_idx = b.input_idx) &&
  decide (a.output_idx = b.output_idx)

/-- A heap of `Arc<SharedState<T>>` allocations, addressed by index.
Models the separate reference-counted allocations that `Arc::new`
creates. -/
structure Heap (T : Type) where
  cells : List (SharedState T)
deriving DecidableEq, Repr

/-- Dereference an `Arc` pointer. -/
def Heap.getCell {T : Type} (h : Heap T) (p : Nat) : Option (SharedState T) :=
  h.cells[p]?

/-- Store through an `Arc` pointer. -/
def Heap.setCell {T : Type} (h : Heap T) (p : Nat) (s : SharedState T) : Heap T :=
  ⟨h.cells.set p s⟩

/-- Rust `Arc::new`: allocate a fresh cell and return its pointer. -/
def Heap.alloc {T : Type} (h : Heap T) (s : SharedState T) : Heap T × Nat :=
  (⟨h.cells ++ [s]⟩, h.cells.length)

/-- An unsplit `TripleBuffer` at the pointer level: the `Input` handle's
`Arc` pointer and private `input_idx`, and the `Output` handle's `Arc`
pointer and private `output_idx`. -/
structure ArcBuffer where
  input_shared : Nat
  input_idx : Nat
  output_shared : Nat
  output_idx : Nat
deriving DecidableEq, Repr

/-- Rust `SharedState::clone`: clone each of the three buffer cells and a
relaxed load of the descriptor word. -/
def SharedState.clone {T : Type} (s : SharedState T) : SharedState T :=
  { buffers := ⟨s.buffers.b0, s.buffers.b1, s.buffers.b2⟩,
    back_info := s.back_info }

/-- Rust `impl Clone for TripleBuffer`: read the shared state through the input
handle's `Arc`, deep-clone it into a fresh allocation, and point both new
handles at the fresh allocation, copying both private indices. -/
def TripleBuffer.cloneH {T : Type} (h : Heap T) (b : ArcBuffer) :
    Option (Heap T × ArcBuffer) :=
  match Heap.getCell h b.input_shared with
  | none => none
  | some s =>
    let fresh := Heap.alloc h (SharedState.clone s)
    some (fresh.1, ⟨fresh.2, b.input_idx, fresh.2, b.output_idx⟩)

/-- One producer- or consumer-side call on a buffer's handles. -/
inductive Op (T : Type) where
  | write (v : T)
  | publish
  | update
  | read

/-- Run one call through a buffer's handles on the heap: load the shared
state through the handle's pointer, run the flattened operation, store
the shared state back and record the handle's new private index. -/
def applyOp {T : Type} (op : Op T) (h : Heap T) (b : ArcBuffer) :
    Option (Heap T × ArcBuffer) :=
  match op with
  | .write v =>
    match Heap.getCell h b.input_shared with
    | none => none
    | some s =>
      match Input.write v ⟨s, b.input_idx, b.output_idx⟩ with
      | none => none
      | some m =>
        some (Heap.setCell h b.input_shared m.shared,
          { b with input_idx := m.input_idx })
  | .publish =>
    match Heap.getCell h b.input_shared with
    | none => none
    | some s =>
      let m := (Input.publish ⟨s, b.input_idx, b.output_idx⟩).2
      some (Heap.setCell h b.input_shared m.shared,
        { b with input_idx := m.input_idx })
  | .update =>
    match Heap.getCell h b.output_shared with
    | none => none
    | some s =>
      let m := (Output.update ⟨s, b.input_idx, b.output_idx⟩).2
      some (Heap.setCell h b.output_shared m.shared,
        { b with output_idx := m.output_idx })
  | .read =>
    match Heap.getCell h b.output_shared with
    | none => none
    | some s =>
      match Output.read ⟨s, b.input_idx, b.output_idx⟩ with
      | none => none
      | some vm =>
        some (Heap.setCell h b.output_shared vm.2.shared,
          { b with output_idx := vm.2.output_idx })

/-- Run a sequence of calls through one buffer's handles. -/
def applyOps {T : Type} : List (Op T) → Heap T → ArcBuffer → Option (Heap T × ArcBuffer)
  | [], h, b => some (h, b)
  | op :: ops, h, b =>
    match applyOp op h b with
    | none => none
    | some hb => applyOps ops hb.1 hb.2

/-- Demo heap with one allocation, used by the C9 witness. -/
def demoHeap : Heap Nat := ⟨[{ buffers := ⟨0, 0, 0⟩, back_info := 0 }]⟩

/-- Demo unsplit buffer pointing at the only cell of `demoHeap`. -/
def demoBuf : ArcBuffer := ⟨0, 1, 0, 2⟩

/-- The heap after cloning `demoBuf` on `demoHeap`. -/
def demoHeap1 : Heap Nat :=
  ⟨[{ buffers := ⟨0, 0, 0⟩, back_info := 0 },
    { buffers := ⟨0, 0, 0⟩, back_info := 0 }]⟩

/-- The clone of `demoBuf`: both handles point at the fresh cell 1. -/
def demoBuf2 : ArcBuffer := ⟨1, 1, 1, 2⟩

/-- The heap after `write 5` through `demoBuf` on `demoHeap1`. -/
def demoHeap2 : Heap Nat :=
  ⟨[{ buffers := ⟨0, 5, 0⟩, back_info := 5 },
    { buffers := ⟨0, 0, 0⟩, back_info := 0 }]⟩

theorem publish_step_mem :
    ∀ p ∈ invStates,
      ((p.2.2 &&& BACK_INDEX_MASK, p.2.1, p.1 ||| BACK_DIRTY_BIT) : Nat × Nat × Nat) ∈
        invStates := by
  decide

theorem update_step_mem :
    ∀ p ∈ invStates,
      ((if (p.2.2 &&& BACK_DIRTY_BIT != 0) = true
        then (p.1, p.2.2 &&& BACK_INDEX_MASK, p.2.1)
        else p) : Nat × Nat × Nat) ∈ invStates := by
  decide

theorem indexInv_new_impl {T : Type} (g : Nat → T) :
    IndexInv (TripleBuffer.new_impl g) :=
  (by decide : ((1 : Nat), (2 : Nat), (0 : Nat)) ∈ invStates)

theorem indexInv_publish {T : Type} (m : TripleBuffer T) (h : IndexInv m) :
    IndexInv (Input.publish m).2 :=
  publish_step_mem (m.input_idx, m.output_idx, m.shared.back_info) h

theorem indexInv_input_buffer_set {T : Type} (m m' : TripleBuffer T) (v : T)
    (hset : Input.input_buffer_set m v = some m') (h : IndexInv m) : IndexInv m' := by
  obtain ⟨bs, hbs, rfl⟩ := Option.map_eq_some'.mp hset
  simpa [IndexInv] using h

theorem indexInv_write {T : Type} (m m' : TripleBuffer T) (v : T)
    (hw : Input.write v m = some m') (h : IndexInv m) : IndexInv m' := by
  obtain ⟨m1, hm1, rfl⟩ := Option.map_eq_some'.mp hw
  exact indexInv_publish m1 (indexInv_input_buffer_set m m1 v hm1 h)

theorem indexInv_update {T : Type} (m : TripleBuffer T) (h : IndexInv m) :
    IndexInv (Output.update m).2 := by
  have hstep := update_step_mem (m.input_idx, m.output_idx, m.shared.back_info) h
  by_cases hd : (m.shared.back_info &&& BACK_DIRTY_BIT != 0) = true
  · rw [if_pos hd] at hstep
    unfold IndexInv Output.update Output.updated
    rw [if_pos hd]
    exact hstep
  · rw [if_neg hd] at hstep
    unfold IndexInv Output.update Output.updated
    rw [if_neg hd]
    exact hstep

theorem indexInv_read {T : Type} (m m' : TripleBuffer T) (v : T)
    (hr : Output.read m = some (v, m')) (h : IndexInv m) : IndexInv m' := by
  obtain ⟨w, hw, heq⟩ := Option.map_eq_some'.mp hr
  cases heq
  exact indexInv_update m h

theorem reachable_indexInv {T : Type} {g : Nat → T} {m : TripleBuffer T}
    (h : Reachable g m) : IndexInv m := by
  induction h with
  | init => exact indexInv_new_impl g
  | write v hr hw ih => exact indexInv_write _ _ v hw ih
  | publish hr ih => exact indexInv_publish _ ih
  | update hr ih => exact indexInv_update _ ih
  | read v hr hrd ih => exact indexInv_read _ _ v hrd ih

theorem groundBitFacts :
    ((0 : Nat) &&& 3 = 0) ∧ ((1 : Nat) &&& 3 = 1) ∧ ((2 : Nat) &&& 3 = 2) ∧
    ((4 : Nat) &&& 3 = 0) ∧ ((5 : Nat) &&& 3 = 1) ∧ ((6 : Nat) &&& 3 = 2) ∧
    ((0 : Nat) &&& 4 = 0) ∧ ((1 : Nat) &&& 4 = 0) ∧ ((2 : Nat) &&& 4 = 0) ∧
    ((4 : Nat) &&& 4 = 4) ∧ ((5 : Nat) &&& 4 = 4) ∧ ((6 : Nat) &&& 4 = 4) ∧
    ((0 : Nat) ||| 4 = 4) ∧ ((1 : Nat) ||| 4 = 5) ∧ ((2 : Nat) ||| 4 = 6) := by
  decide

theorem slot_partition_of_indexInv {T : Type} (m : TripleBuffer T) (h : IndexInv m) :
    m.input_idx ≠ m.output_idx ∧ m.input_idx ≠ backIdx m ∧ m.output_idx ≠ backIdx m ∧
    ({m.input_idx, m.output_idx, backIdx m} : Finset ℕ) = {0, 1, 2} := by
  obtain ⟨⟨bufs, B⟩, i, o⟩ := m
  simp only [IndexInv, invStates] at h
  fin_cases h
  all_goals refine ⟨?_, ?_, ?_, ?_⟩ <;>
    first
      | decide
      | (simp only [backIdx, BACK_INDEX_MASK, groundBitFacts] <;> decide)

/-- C1 — Slot-partition invariant: in every state reachable from
construction by write/publish/read/update calls, the producer's
`input_idx`, the consumer's `output_idx` and the descriptor's back-buffer
index are pairwise distinct and form the set `{0, 1, 2}`. -/
theorem slot_partition_invariant {T : Type} (g : Nat → T) (m : TripleBuffer T)
    (h : Reachable g m) :
    m.input_idx ≠ m.output_idx ∧ m.input_idx ≠ backIdx m ∧ m.output_idx ≠ backIdx m ∧
    ({m.input_idx, m.output_idx, backIdx m} : Finset ℕ) = {0, 1, 2} :=
  slot_partition_of_indexInv m (reachable_indexInv h)

/-- Witness for C1 at the freshly constructed buffer over `fun _ => 0`. -/
theorem slot_partition_invariant_witness :
    (TripleBuffer.new_impl (fun _ => (0 : Nat))).input_idx ≠
        (TripleBuffer.new_impl (fun _ => (0 : Nat))).output_idx ∧
    (TripleBuffer.new_impl (fun _ => (0 : Nat))).input_idx ≠
        backIdx (TripleBuffer.new_impl (fun _ => (0 : Nat))) ∧
    (TripleBuffer.new_impl (fun _ => (0 : Nat))).output_idx ≠
        backIdx (TripleBuffer.new_impl (fun _ => (0 : Nat))) ∧
    ({(TripleBuffer.new_impl (fun _ => (0 : Nat))).input_idx,
      (TripleBuffer.new_impl (fun _ => (0 : Nat))).output_idx,
      backIdx (TripleBuffer.new_impl (fun _ => (0 : Nat)))} : Finset ℕ) = {0, 1, 2} :=
  slot_partition_invariant (fun _ => (0 : Nat)) _ Reachable.init

/-- C2 — Single-write visibility: from any well-formed buffer state,
`write v` followed by `read` with no interleaved write succeeds and the
read returns exactly `v`. -/
theorem single_write_visibility {T : Type} (m : TripleBuffer T) (v : T)
    (h : IndexInv m) :
    ((Input.write v m).bind (fun m1 => Output.read m1)).map Prod.fst = some v := by
  obtain ⟨⟨bufs, B⟩, i, o⟩ := m
  simp only [IndexInv, invStates] at h
  fin_cases h
  all_goals simp [Input.write, Input.input_buffer_set, Buffers.set?, Input.publish,
    Output.read, Output.update, Output.updated, Buffers.get?, BACK_INDEX_MASK, BACK_DIRTY_BIT]

/-- Witness for C2 at the freshly constructed buffer. -/
theorem single_write_visibility_witness :
    ((Input.write (5 : Nat) (TripleBuffer.new 0)).bind
        (fun m1 => Output.read m1)).map Prod.fst = some 5 :=
  single_write_visibility (TripleBuffer.new 0) 5 (by decide)

/-- C3 — Overwrite semantics: from any well-formed state with the dirty
bit clear, `write v1; write v2; read()` with no read in between returns
`v2`; the publish inside the first write reports no overwrite and the one
inside the second write reports overwrite.  `Input.write` is the slot
store (`input_buffer_set`) followed by `publish`, so the flag of the
publish inside each write is exposed by mapping `publish` over the stored
state. -/
theorem overwrite_semantics {T : Type} (m : TripleBuffer T) (v1 v2 : T)
    (h : IndexInv m) (hclean : Output.updated m = false) :
    (Input.input_buffer_set m v1).map (fun a => (Input.publish a).1) = some false ∧
    (Input.input_buffer_set m v1).map (fun a => (Input.publish a).2) = Input.write v1 m ∧
    (Input.write v1 m).bind
        (fun m1 => (Input.input_buffer_set m1 v2).map (fun b => (Input.publish b).1)) =
      some true ∧
    (Input.write v1 m).bind
        (fun m1 => (Input.input_buffer_set m1 v2).map (fun b => (Input.publish b).2)) =
      (Input.write v1 m).bind (fun m1 => Input.write v2 m1) ∧
    (((Input.write v1 m).bind (fun m1 => Input.write v2 m1)).bind
        (fun m2 => Output.read m2)).map Prod.fst = some v2 := by
  obtain ⟨⟨bufs, B⟩, i, o⟩ := m
  simp only [IndexInv, invStates] at h
  fin_cases h
  all_goals simp [Output.updated, BACK_DIRTY_BIT, groundBitFacts] at hclean
  all_goals simp [Input.write, Input.input_buffer_set, Buffers.set?, Input.publish,
    Output.read, Output.update, Output.updated, Buffers.get?,
    BACK_INDEX_MASK, BACK_DIRTY_BIT, groundBitFacts]

/-- Witness for C3 at the freshly constructed buffer. -/
theorem overwrite_semantics_witness :
    (Input.input_buffer_set (TripleBuffer.new (0 : Nat)) 7).map
        (fun a => (Input.publish a).1) = some false ∧
    (Input.input_buffer_set (TripleBuffer.new (0 : Nat)) 7).map
        (fun a => (Input.publish a).2) = Input.write 7 (TripleBuffer.new 0) ∧
    (Input.write 7 (TripleBuffer.new (0 : Nat))).bind
        (fun m1 => (Input.input_buffer_set m1 8).map (fun b => (Input.publish b).1)) =
      some true ∧
    (Input.write 7 (TripleBuffer.new (0 : Nat))).bind
        (fun m1 => (Input.input_buffer_set m1 8).map (fun b => (Input.publish b).2)) =
      (Input.write 7 (TripleBuffer.new 0)).bind (fun m1 => Input.write 8 m1) ∧
    (((Input.write 7 (TripleBuffer.new (0 : Nat))).bind
          (fun m1 => Input.write 8 m1)).bind
        (fun m2 => Output.read m2)).map Prod.fst = some 8 :=
  overwrite_semantics (TripleBuffer.new 0) 7 8 (by decide) (by decide)

/-- C4 — Publish postcondition: `publish` stores `input_idx` with the
dirty bit set into the descriptor (changing nothing else in the shared
state), takes the index part of the former descriptor as the new
`input_idx`, and returns true exactly when the former dirty bit was
set. -/
theorem publish_postcondition {T : Type} (m : TripleBuffer T) (h : m.input_idx < 3) :
    (Input.publish m).2.shared.back_info = m.input_idx ||| BACK_DIRTY_BIT ∧
    (Input.publish m).2.shared.back_info &&& BACK_DIRTY_BIT ≠ 0 ∧
    (Input.publish m).2.shared.back_info &&& BACK_INDEX_MASK = m.input_idx ∧
    (Input.publish m).2.input_idx = m.shared.back_info &&& BACK_INDEX_MASK ∧
    (Input.publish m).2.output_idx = m.output_idx ∧
    (Input.publish m).2.shared.buffers = m.shared.buffers ∧
    ((Input.publish m).1 = true ↔ m.shared.back_info &&& BACK_DIRTY_BIT ≠ 0) := by
  obtain ⟨⟨bufs, B⟩, i, o⟩ := m
  simp only at h
  interval_cases i <;>
    refine ⟨rfl, ?_, ?_, rfl, rfl, rfl, ?_⟩ <;>
    simp [Input.publish, BACK_DIRTY_BIT, BACK_INDEX_MASK, groundBitFacts]

/-- Witness for C4: publishing on a fresh buffer stores descriptor
`1 ||| BACK_DIRTY_BIT`. -/
theorem publish_postcondition_witness :
    (Input.publish (TripleBuffer.new (0 : Nat))).2.shared.back_info =
      (TripleBuffer.new (0 : Nat)).input_idx ||| BACK_DIRTY_BIT :=
  (publish_postcondition (TripleBuffer.new 0) (by decide)).1

/-- C5 — Update postcondition: when the dirty bit is set, `update`
exchanges the descriptor with `output_idx` (an encoding with dirty clear),
adopts the index part of the former descriptor as `output_idx` and
returns true; when the dirty bit is clear it changes nothing and returns
false. -/
theorem update_postcondition {T : Type} (m : TripleBuffer T) (h : m.output_idx < 3) :
    (Output.updated m = true →
      Output.update m =
        (true,
          { m with
            shared := { m.shared with back_info := m.output_idx },
            output_idx := m.shared.back_info &&& BACK_INDEX_MASK }) ∧
      m.output_idx &&& BACK_DIRTY_BIT = 0 ∧
      m.output_idx &&& BACK_INDEX_MASK = m.output_idx) ∧
    (Output.updated m = false → Output.update m = (false, m)) := by
  obtain ⟨⟨bufs, B⟩, i, o⟩ := m
  simp only at h
  constructor
  · intro hu
    refine ⟨by simp [Output.update, hu], ?_, ?_⟩ <;>
      interval_cases o <;>
      simp [BACK_DIRTY_BIT, BACK_INDEX_MASK, groundBitFacts]
  · intro hu
    simp [Output.update, hu]

/-- Witness for C5: on a fresh buffer the dirty bit is clear and `update`
is the identity returning false. -/
theorem update_postcondition_witness :
    Output.update (TripleBuffer.new (0 : Nat)) = (false, TripleBuffer.new 0) :=
  (update_postcondition (TripleBuffer.new 0) (by decide)).2 (by decide)

/-- C6 — Idempotent clean read: a second `read` with no intervening write
returns the same value and leaves the whole state (descriptor word and
`output_idx` included) bit-for-bit unchanged. -/
theorem idempotent_clean_read {T : Type} (m m1 : TripleBuffer T) (v : T)
    (h : IndexInv m) (hr : Output.read m = some (v, m1)) :
    Output.read m1 = some (v, m1) := by
  obtain ⟨⟨bufs, B⟩, i, o⟩ := m
  simp only [IndexInv, invStates] at h
  fin_cases h
  all_goals simp [Output.read, Output.update, Output.updated, Buffers.get?,
    BACK_INDEX_MASK, BACK_DIRTY_BIT, groundBitFacts] at hr
  all_goals obtain ⟨rfl, rfl⟩ := hr
  all_goals simp [Output.read, Output.update, Output.updated, Buffers.get?,
    BACK_INDEX_MASK, BACK_DIRTY_BIT, groundBitFacts]

/-- Witness for C6 at the freshly constructed buffer. -/
theorem idempotent_clean_read_witness :
    Output.read (TripleBuffer.new (0 : Nat)) = some (0, TripleBuffer.new 0) :=
  idempotent_clean_read (TripleBuffer.new 0) (TripleBuffer.new 0) 0 (by decide) (by decide)

/-- C7 — Initial state: construction fills slot `k` with the generator's
`k`-th output, sets `input_idx = 1`, `output_idx = 2`, back index `0`,
dirty clear; a read before any write returns the initial value and
changes nothing. -/
theorem initial_state_spec {T : Type} (g : Nat → T) (v : T) :
    (TripleBuffer.new_impl g).shared.buffers = ⟨g 0, g 1, g 2⟩ ∧
    (TripleBuffer.new_impl g).input_idx = 1 ∧
    (TripleBuffer.new_impl g).output_idx = 2 ∧
    backIdx (TripleBuffer.new_impl g) = 0 ∧
    Output.updated (TripleBuffer.new_impl g) = false ∧
    Output.read (TripleBuffer.new v) = some (v, TripleBuffer.new v) := by
  refine ⟨rfl, rfl, rfl, ?_, ?_, ?_⟩
  · simp [backIdx, TripleBuffer.new_impl, BACK_INDEX_MASK, groundBitFacts]
  · simp [Output.updated, TripleBuffer.new_impl, BACK_DIRTY_BIT, groundBitFacts]
  · simp [Output.read, Output.update, Output.updated, Buffers.get?,
      TripleBuffer.new, TripleBuffer.new_impl, BACK_INDEX_MASK, BACK_DIRTY_BIT, groundBitFacts]

/-- C10 — Diagnostic complementarity: `Input::consumed` is the negation
of `Output::updated`; both are pure functions of the descriptor word (the
embedding types them as state-preserving by construction, matching the
`&self` receivers in the source). -/
theorem consumed_complements_updated {T : Type} (m : TripleBuffer T) :
    Input.consumed m = !(Output.updated m) ∧
    Input.consumed m = (m.shared.back_info &&& BACK_DIRTY_BIT == 0) ∧
    Output.updated m = (m.shared.back_info &&& BACK_DIRTY_BIT != 0) := by
  refine ⟨?_, rfl, rfl⟩
  simp [Input.consumed, Output.updated, bne]

/-- C8 — Equality: two buffers compare equal under `PartialEq` iff all
three slot contents, the descriptor word, `input_idx` and `output_idx`
agree; in particular two buffers constructed from equal initial values
compare equal, and making either slot-index field differ makes them
compare unequal. -/
theorem partial_eq_characterization {T : Type} [DecidableEq T] :
    (∀ a b : TripleBuffer T,
      TripleBuffer.eq a b = true ↔
        (a.shared.buffers.b0 = b.shared.buffers.b0 ∧
         a.shared.buffers.b1 = b.shared.buffers.b1 ∧
         a.shared.buffers.b2 = b.shared.buffers.b2 ∧
         a.shared.back_info = b.shared.back_info ∧
         a.input_idx = b.input_idx ∧
         a.output_idx = b.output_idx)) ∧
    (∀ v w : T, v = w →
      TripleBuffer.eq (TripleBuffer.new v) (TripleBuffer.new w) = true) ∧
    (∀ a b : TripleBuffer T, a.input_idx ≠ b.input_idx →
      TripleBuffer.eq a b = false) ∧
    (∀ a b : TripleBuffer T, a.output_idx ≠ b.output_idx →
      TripleBuffer.eq a b = false) := by
  have hiff : ∀ a b : TripleBuffer T,
      TripleBuffer.eq a b = true ↔
        (a.shared.buffers.b0 = b.shared.buffers.b0 ∧
         a.shared.buffers.b1 = b.shared.buffers.b1 ∧
         a.shared.buffers.b2 = b.shared.buffers.b2 ∧
         a.shared.back_info = b.shared.back_info ∧
         a.input_idx = b.input_idx ∧
         a.output_idx = b.output_idx) := by
    intro a b
    simp [TripleBuffer.eq, SharedState.eq, and_assoc]
  refine ⟨hiff, ?_, ?_, ?_⟩
  · rintro v w rfl
    exact (hiff _ _).mpr ⟨rfl, rfl, rfl, rfl, rfl, rfl⟩
  · intro a b hne
    cases he : TripleBuffer.eq a b with
    | false => rfl
    | true => exact absurd ((hiff a b).mp he).2.2.2.2.1 hne
  · intro a b hne
    cases he : TripleBuffer.eq a b with
    | false => rfl
    | true => exact absurd ((hiff a b).mp he).2.2.2.2.2 hne

/-- Witness for C8: two buffers built from the value 0 compare equal. -/
theorem partial_eq_characterization_witness :
    TripleBuffer.eq (TripleBuffer.new (0 : Nat)) (TripleBuffer.new 0) = true :=
  partial_eq_characterization.2.1 0 0 rfl

theorem getCell_setCell_ne {T : Type} (h : Heap T) (p q : Nat) (s : SharedState T)
    (hne : q ≠ p) : Heap.getCell (Heap.setCell h p s) q = Heap.getCell h q :=
  List.getElem?_set_ne (Ne.symm hne)

theorem applyOp_frame {T : Type} (op : Op T) (h h' : Heap T) (b b' : ArcBuffer)
    (heq : applyOp op h b = some (h', b')) :
    b'.input_shared = b.input_shared ∧ b'.output_shared = b.output_shared ∧
    ∀ q, q ≠ b.input_shared → q ≠ b.output_shared →
      Heap.getCell h' q = Heap.getCell h q := by
  cases op with
  | write v =>
    simp only [applyOp] at heq
    split at heq
    · cases heq
    · split at heq
      · cases heq
      · simp only [Option.some.injEq, Prod.mk.injEq] at heq
        obtain ⟨rfl, rfl⟩ := heq
        exact ⟨rfl, rfl, fun q hq1 hq2 => getCell_setCell_ne h _ q _ hq1⟩
  | publish =>
    simp only [applyOp] at heq
    split at heq
    · cases heq
    · simp only [Option.some.injEq, Prod.mk.injEq] at heq
      obtain ⟨rfl, rfl⟩ := heq
      exact ⟨rfl, rfl, fun q hq1 hq2 => getCell_setCell_ne h _ q _ hq1⟩
  | update =>
    simp only [applyOp] at heq
    split at heq
    · cases heq
    · simp only [Option.some.injEq, Prod.mk.injEq] at heq
      obtain ⟨rfl, rfl⟩ := heq
      exact ⟨rfl, rfl, fun q hq1 hq2 => getCell_setCell_ne h _ q _ hq2⟩
  | read =>
    simp only [applyOp] at heq
    split at heq
    · cases heq
    · split at heq
      · cases heq
      · simp only [Option.some.injEq, Prod.mk.injEq] at heq
        obtain ⟨rfl, rfl⟩ := heq
        exact ⟨rfl, rfl, fun q hq1 hq2 => getCell_setCell_ne h _ q _ hq2⟩

theorem applyOps_frame {T : Type} (ops : List (Op T)) (h h' : Heap T) (b b' : ArcBuffer)
    (heq : applyOps ops h b = some (h', b')) :
    b'.input_shared = b.input_shared ∧ b'.output_shared = b.output_shared ∧
    ∀ q, q ≠ b.input_shared → q ≠ b.output_shared →
      Heap.getCell h' q = Heap.getCell h q := by
  induction ops generalizing h b with
  | nil =>
    simp only [applyOps, Option.some.injEq, Prod.mk.injEq] at heq
    obtain ⟨rfl, rfl⟩ := heq
    exact ⟨rfl, rfl, fun _ _ _ => rfl⟩
  | cons op ops ih =>
    unfold applyOps at heq
    split at heq
    · cases heq
    · next hb hstep =>
      obtain ⟨hi1, ho1, hframe1⟩ := applyOp_frame op h hb.1 b hb.2 hstep
      obtain ⟨hi2, ho2, hframe2⟩ := ih hb.1 hb.2 heq
      refine ⟨hi2.trans hi1, ho2.trans ho1, fun q hq1 hq2 => ?_⟩
      rw [hframe2 q (hi1 ▸ hq1) (ho1 ▸ hq2), hframe1 q hq1 hq2]

theorem cloneH_spec {T : Type} (h0 h1 : Heap T) (b b2 : ArcBuffer)
    (hc : TripleBuffer.cloneH h0 b = some (h1, b2)) :
    b2.input_shared = h0.cells.length ∧ b2.output_shared = h0.cells.length ∧
    b2.input_idx = b.input_idx ∧ b2.output_idx = b.output_idx := by
  simp only [TripleBuffer.cloneH, Heap.alloc] at hc
  split at hc
  · cases hc
  · simp only [Option.some.injEq, Prod.mk.injEq] at hc
    obtain ⟨rfl, rfl⟩ := hc
    exact ⟨rfl, rfl, rfl, rfl⟩

/-- C9 — Duplication fidelity: cloning an unsplit buffer allocates a
fresh shared state at a pointer distinct from the original's, copies both
private indices, and thereafter no sequence of write/publish/update/read
calls through one buffer's handles changes the shared state observable
through the other buffer's pointers (slot contents and descriptor word
alike; the clone's index fields are its own copies and are untouched by
construction). -/
theorem duplication_fidelity {T : Type} (h0 : Heap T) (b : ArcBuffer)
    (hin : b.input_shared < h0.cells.length)
    (hout : b.output_shared < h0.cells.length)
    (h1 : Heap T) (b2 : ArcBuffer)
    (hc : TripleBuffer.cloneH h0 b = some (h1, b2)) :
    b2.input_shared ≠ b.input_shared ∧ b2.output_shared ≠ b.output_shared ∧
    b2.input_idx = b.input_idx ∧ b2.output_idx = b.output_idx ∧
    (∀ ops h2 b', applyOps ops h1 b = some (h2, b') →
      Heap.getCell h2 b2.input_shared = Heap.getCell h1 b2.input_shared ∧
      Heap.getCell h2 b2.output_shared = Heap.getCell h1 b2.output_shared) ∧
    (∀ ops h3 b2', applyOps ops h1 b2 = some (h3, b2') →
      Heap.getCell h3 b.input_shared = Heap.getCell h1 b.input_shared ∧
      Heap.getCell h3 b.output_shared = Heap.getCell h1 b.output_shared) := by
  obtain ⟨hbi, hbo, hii, hoo⟩ := cloneH_spec h0 h1 b b2 hc
  have hne_in : b2.input_shared ≠ b.input_shared := by rw [hbi]; omega
  have hne_out : b2.output_shared ≠ b.output_shared := by rw [hbo]; omega
  refine ⟨hne_in, hne_out, hii, hoo, ?_, ?_⟩
  · intro ops h2 b' hrun
    obtain ⟨h1', h2', hframe⟩ := applyOps_frame ops h1 h2 b b' hrun
    exact ⟨hframe _ hne_in (by rw [hbi]; omega),
           hframe _ (by rw [hbo]; omega) hne_out⟩
  · intro ops h3 b2' hrun
    obtain ⟨h1', h2', hframe⟩ := applyOps_frame ops h1 h3 b2 b2' hrun
    exact ⟨hframe _ (by rw [hbi]; omega) (by rw [hbo]; omega),
           hframe _ (by rw [hbi]; omega) (by rw [hbo]; omega)⟩

/-- Witness for C9: writing 5 through the original buffer leaves the
clone's shared cell unchanged. -/
theorem duplication_fidelity_witness :
    Heap.getCell demoHeap2 demoBuf2.input_shared =
      Heap.getCell demoHeap1 demoBuf2.input_shared :=
  ((duplication_fidelity demoHeap demoBuf (by decide) (by decide) demoHeap1 demoBuf2
      (by decide)).2.2.2.2.1 [Op.write 5] demoHeap2 ⟨0, 0, 0, 2⟩ (by decide)).1
